import Mathlib

/-!
Verification development for the Articles Service of the MonitoRSS feed
pipeline (source: `services/user-feeds/src/articles/articles.service.ts`,
provided as `src/unnamed/part_002`).

The service is embedded shallowly:

* `Article`, `Flattened`, `RawDates` model the parsed article value.
* `StoreState` models the persistent dedup state: the partitioned
  field-row table (unique on `(feedId, fieldName, fieldHashedValue)`) and
  the comparison-name registry table (unique on `(feedId, fieldName)`).
* The external `PartitionedFeedArticleFieldStoreService` and the
  comparison registry repository are not part of the given source files;
  their operations (`persist`, `hasArticlesStoredForFeed`,
  `findIdFieldsForFeed`, `someFieldsExist`) are modelled from the spec
  (section 4.E / 4.F): `persist` inserts rows and surfaces a
  unique-constraint violation when an inserted row collides with an
  existing row or with another row of the same batch; the enclosing
  transaction then rolls back.
* SHA-1 hex digests are modelled by an injective, never-empty encoding
  `sha1hex`; the service only ever compares digests for equality.
* Wall-clock instants (dayjs) are modelled as `Int` millisecond counts;
  a raw date field is `some t` exactly when the source value parses as a
  valid date (the service stores an ISO string only in that case).

Every definition is translated from the source function of the same name;
line references are given in the doc comments.
-/

/-- Models the lowercase hex SHA-1 digest (`sha1.copy().update(s).digest("hex")`,
part_002 line 42 and uses). The service relies only on digest equality, on
digests being strings, and on a digest never being the empty string; the
model therefore encodes the input injectively and never returns `""`. -/
def sha1hex (s : String) : String := ⟨'#' :: s.data⟩

/-- The flattened face of an article (shared/types `Article["flattened"]`):
a string-keyed record guaranteed to carry `id` and `idHash`. Other
flattener-produced keys (title, description, ...) live in `fields`. -/
structure Flattened where
  id : String
  idHash : String
  fields : List (String × String)
deriving DecidableEq

/-- The raw face of an article (part_002 lines 806-815): the two temporal
fields, present exactly when the source value parsed as a valid date.
A present value is modelled as the parsed millisecond timestamp. -/
structure RawDates where
  date : Option Int
  pubdate : Option Int
deriving DecidableEq

/-- An article as returned by `getArticlesFromXml` (part_002 lines 860-865). -/
structure Article where
  flattened : Flattened
  raw : RawDates
deriving DecidableEq

/-- Modelled from the spec: `getNestedPrimitiveValue` (imported at part_002
line 9 from `./utils/get-nested-primitive-value`, source not under src/)
reads the primitive stored at a key of the flattened record, or null.
The `id`/`idHash` keys override flattener output in the spread at
part_002 lines 800-805, so they are consulted first. -/
def getNestedPrimitiveValue (f : Flattened) (key : String) : Option String :=
  if key = "id" then some f.id
  else if key = "idHash" then some f.idHash
  else (f.fields.find? (fun p => p.1 = key)).map (fun p => p.2)

/-- A row of the partitioned feed-article-field table
(`PartitionedFeedArticleFieldInsert`, part_002 line 37). `createdAt` is
omitted: it is not part of the unique key and no claim mentions it. -/
structure FieldRow where
  feedId : String
  fieldName : String
  fieldHashedValue : String
deriving DecidableEq

/-- The persistent state the service reads and writes: the field-row table
and the `FeedArticleCustomComparison` registry, each with its unique key
(spec section 6: unique `(feedId, fieldName, fieldHashedValue)` resp.
`(feedId, fieldName)`). -/
structure StoreState where
  fieldRows : List FieldRow
  comparisons : List (String × String)
deriving DecidableEq

/-- Error taxonomy of the parse path (part_002 lines 742-780). -/
inductive FeedError where
  | invalidFeed
  | parserError (msg : String)
  | noIdType
  | missingIdHash
deriving DecidableEq

/-- A raw feedparser item, carrying the identity-candidate fields consulted
by the id resolver, the flattener output for this item (the external
`ArticleParserService.flatten` is out of scope per spec section 1, so the
flattened key-value pairs are given directly), and the validly-parsed
temporal fields. -/
structure RawItem where
  guid : Option String := none
  pubdate : Option String := none
  title : Option String := none
  link : Option String := none
  dateMs : Option Int := none
  pubdateMs : Option Int := none
  fields : List (String × String) := []
deriving DecidableEq

/-- The identity-candidate keys of the id resolver, spec section 4.A. -/
inductive IdField where
  | guid
  | pubdate
  | title
  | link
deriving DecidableEq

/-- The candidate value of an item for a given identity key. -/
def candVal (item : RawItem) : IdField → Option String
  | .guid => item.guid
  | .pubdate => item.pubdate
  | .title => item.title
  | .link => item.link

/-- Candidate keys in priority order (spec section 4.A). -/
def idTypePriority : List IdField := [.guid, .pubdate, .title, .link]

/-- Modelled from the spec (section 4.A): a candidate survives when it is
present and non-empty on every item seen. `ArticleIDResolver` itself
(imported at part_002 line 7) is not under src/. -/
def survives (items : List RawItem) (c : IdField) : Bool :=
  items.all (fun it =>
    match candVal it c with
    | some v => decide (v ≠ "")
    | none => false)

/-- Modelled from the spec: `ArticleIDResolver.getIDType` returns the
highest-priority candidate that survives every recorded item. -/
def getIDType (items : List RawItem) : Option IdField :=
  idTypePriority.find? (survives items)

/-- Modelled from the spec: `ArticleIDResolver.getIDTypeValue` reads the
chosen identity field of an item, stringified. -/
def getIDTypeValue (item : RawItem) (t : IdField) : String :=
  (candVal item t).getD ""

/-- One article of the mapping pass of `getArticlesFromXml`
(part_002 lines 783-819): attach `id` and `idHash = sha1hex id` on top of
the flattener output, and keep the validly-parsed raw dates. -/
def buildArticle (t : IdField) (item : RawItem) : Article :=
  { flattened :=
      { id := getIDTypeValue item t
        idHash := sha1hex (getIDTypeValue item t)
        fields := item.fields }
    raw := { date := item.dateMs, pubdate := item.pubdateMs } }

/-- What the streaming feedparser produced for the given XML: either an
error event (part_002 lines 742-751) or the collected items of the
readable/end events (lines 753-769). -/
inductive FeedparserEvent where
  | parseError (msg : String)
  | items (l : List RawItem)
deriving DecidableEq

/-- The error-message classification of part_002 lines 743-746: message
equals "Not a feed" or begins with "Unexpected end". The begins-with test
is modelled on the character list of the message. -/
def msgIndicatesInvalidFeed (msg : String) : Bool :=
  msg = "Not a feed" || "Unexpected end".data.isPrefixOf msg.data

/-- `ArticlesService.getArticlesFromXml` (part_002 lines 722-876), with the
parser stream replaced by its outcome event. On an error event the message
is classified (lines 742-751); zero items resolve to an empty article list
before any id-type resolution (lines 769-771); a missing id type rejects
(lines 774-780); each item is mapped through the flattener with `id` and
`idHash` attached (lines 783-819); an article with a falsy `idHash`
rejects the pass (lines 825-830), while duplicate id hashes only log a
warning and survive (lines 832-843). The parse timeout and the
content-injection pass (real time, concurrency) are not modelled; neither
affects the articles returned. -/
def getArticlesFromXml (ev : FeedparserEvent) : Except FeedError (List Article) :=
  match ev with
  | .parseError msg =>
    if msgIndicatesInvalidFeed msg then .error .invalidFeed
    else .error (.parserError msg)
  | .items rawArticles =>
    if rawArticles.isEmpty then .ok []
    else
      match getIDType rawArticles with
      | none => .error .noIdType
      | some idType =>
        let mappedArticles := rawArticles.map (buildArticle idType)
        if mappedArticles.any (fun a => a.flattened.idHash = "") then
          .error .missingIdHash
        else .ok mappedArticles

/-- Modelled from the spec (section 4.E): the unique constraint on
`(feedId, fieldName, fieldHashedValue)` is violated when an inserted row
already exists or when the batch itself repeats a row. -/
def rowsViolate (existing newRows : List FieldRow) : Bool :=
  !(decide newRows.Nodup) || newRows.any (fun r => decide (r ∈ existing))

/-- Database error surfaced by the field store and the registry on a
unique-constraint collision (`UniqueConstraintViolationException` with
code 23505, part_002 lines 583-586). -/
inductive DbError where
  | uniqueConstraintViolation
deriving DecidableEq

/-- Modelled from the spec (section 4.E):
`PartitionedFeedArticleFieldStoreService.persist(rows, em)` inserts the
rows, surfacing a unique-constraint violation on collision. -/
def persist (existing newRows : List FieldRow) : Except DbError (List FieldRow) :=
  if rowsViolate existing newRows then .error .uniqueConstraintViolation
  else .ok (existing ++ newRows)

/-- Modelled from the spec (section 6): the comparison registry has a
unique `(feedId, fieldName)` key; `em.persist` of new registry entities
(part_002 line 628) collides when the batch repeats a name or re-inserts
an existing row. -/
def registryViolate (existing newRows : List (String × String)) : Bool :=
  !(decide newRows.Nodup) || newRows.any (fun r => decide (r ∈ existing))

/-- Registry insertion half of `em.persist(comparisonNamesToStore)`
(part_002 line 628), flushed inside the enclosing transaction. -/
def persistRegistry (existing newRows : List (String × String)) :
    Except DbError (List (String × String)) :=
  if registryViolate existing newRows then .error .uniqueConstraintViolation
  else .ok (existing ++ newRows)

/-- `PartitionedFeedArticleFieldStoreService.hasArticlesStoredForFeed`,
modelled from the spec (section 4.E): any field row for the feed. -/
def hasArticlesStoredForFeed (s : StoreState) (feedId : String) : Bool :=
  s.fieldRows.any (fun r => decide (r.feedId = feedId))

/-- `ArticlesService.hasPriorArticlesStored` (part_002 lines 543-545). -/
def hasPriorArticlesStored (s : StoreState) (feedId : String) : Bool :=
  hasArticlesStoredForFeed s feedId

/-- `PartitionedFeedArticleFieldStoreService.findIdFieldsForFeed`, modelled
from the spec (section 4.E): the stored id rows of the feed whose hashed
value is among the candidates. -/
def findIdFieldsForFeed (s : StoreState) (feedId : String) (hashes : List String) :
    List FieldRow :=
  s.fieldRows.filter (fun r =>
    decide (r.feedId = feedId ∧ r.fieldName = "id" ∧ r.fieldHashedValue ∈ hashes))

/-- `PartitionedFeedArticleFieldStoreService.someFieldsExist`, modelled from
the spec (section 4.E): true iff any queried `(feedId, name, value)`
triple exists. -/
def someFieldsExist (s : StoreState) (feedId : String)
    (queries : List (String × String)) : Bool :=
  queries.any (fun q =>
    decide (({ feedId := feedId, fieldName := q.1, fieldHashedValue := q.2 } : FieldRow)
      ∈ s.fieldRows))

/-- The id rows prepared by `storeArticles` for every article of the call
(part_002 lines 560-569); prepared regardless of `skipIdStorage`. -/
def idRowsFor (feedId : String) (articles : List Article) : List FieldRow :=
  articles.map (fun article =>
    { feedId := feedId, fieldName := "id", fieldHashedValue := article.flattened.idHash })

/-- The comparison field rows prepared by `storeArticleComparisons`
(part_002 lines 630-649): one row per article per comparison field whose
flattened value is truthy (present and non-empty). -/
def buildComparisonRows (feedId : String) (articles : List Article)
    (comparisonFields : List String) : List FieldRow :=
  articles.flatMap (fun article =>
    comparisonFields.filterMap (fun field =>
      match getNestedPrimitiveValue article.flattened field with
      | some v =>
        if v = "" then none
        else some { feedId := feedId, fieldName := field, fieldHashedValue := sha1hex v }
      | none => none))

/-- `ArticlesService.storeArticleComparisons` (part_002 lines 594-652):
nothing to do without comparison fields; otherwise look up which names are
already registered, insert registry rows for the missing names, and
persist one field row per article per field with a truthy value. -/
def storeArticleComparisons (s : StoreState) (feedId : String)
    (articles : List Article) (comparisonFields : List String) :
    Except DbError StoreState :=
  if comparisonFields.isEmpty then .ok s
  else
    let foundComparisonNames :=
      comparisonFields.filter (fun name => decide ((feedId, name) ∈ s.comparisons))
    let comparisonNamesToStore :=
      comparisonFields.filter (fun name => decide (name ∉ foundComparisonNames))
    match persistRegistry s.comparisons
      (comparisonNamesToStore.map (fun name => (feedId, name))) with
    | .error e => .error e
    | .ok comparisons =>
      match persist s.fieldRows (buildComparisonRows feedId articles comparisonFields) with
      | .error e => .error e
      | .ok fieldRows => .ok { fieldRows := fieldRows, comparisons := comparisons }

/-- The transaction body of `storeArticles` (part_002 lines 572-581):
persist the prepared id rows, then the comparison rows and registry rows,
all against the same entity manager. Note that the id rows are prepared
and persisted for every article of the call: the `skipIdStorage` option
(declared and documented at lines 552-556) is never consulted by the
function body. -/
def storeArticlesInner (s : StoreState) (feedId : String)
    (articles : List Article) (comparisonFields : List String) :
    Except DbError StoreState :=
  match persist s.fieldRows (idRowsFor feedId articles) with
  | .error e => .error e
  | .ok fieldRows =>
    storeArticleComparisons { s with fieldRows := fieldRows } feedId articles comparisonFields

/-- `ArticlesService.storeArticles` (part_002 lines 547-592). The
transaction commits as a whole or rolls back as a whole (spec-modelled
`em.transactional` semantics, spec section 5); a unique-constraint
violation (code 23505) is caught and swallowed (lines 582-591), every
other error would be rethrown (the model has no other error). The
`skipIdStorage` flag is accepted and ignored, as in the source. -/
def storeArticles (s : StoreState) (feedId : String) (articles : List Article)
    (comparisonFields : List String) (skipIdStorage : Bool) :
    StoreState × Option DbError :=
  match storeArticlesInner s feedId articles comparisonFields with
  | .ok s1 => (s1, none)
  | .error .uniqueConstraintViolation => (s, none)

/-- `ArticlesService.areComparisonsStored` (part_002 lines 677-696). -/
def areComparisonsStored (s : StoreState) (feedId : String)
    (comparisonFields : List String) : List (String × Bool) :=
  comparisonFields.map (fun field => (field, decide ((feedId, field) ∈ s.comparisons)))

/-- `ArticlesService.articleFieldsSeenBefore` (part_002 lines 698-720):
hash the truthy values of the requested fields and ask the store whether
any triple exists; no truthy value means false without a store query. -/
def articleFieldsSeenBefore (s : StoreState) (feedId : String) (article : Article)
    (fieldKeys : List String) : Bool :=
  let queries := fieldKeys.filterMap (fun key =>
    match getNestedPrimitiveValue article.flattened key with
    | some v => if v = "" then none else some (key, sha1hex v)
    | none => none)
  if queries.isEmpty then false
  else someFieldsExist s feedId queries

/-- First-occurrence deduplication of id hashes, as performed by the
JavaScript `Map` keyed on `idHash` (part_002 lines 658-661): keys keep
first-insertion order. -/
def dedupFirst (l : List String) : List String :=
  l.foldl (fun acc h => if h ∈ acc then acc else acc ++ [h]) []

/-- `ArticlesService.filterForNewArticles` (part_002 lines 654-675): the
distinct id hashes not already stored, each mapped back to the last
article carrying that hash (a later `Map.set` overwrites the value). -/
def filterForNewArticles (s : StoreState) (feedId : String)
    (articles : List Article) : List Article :=
  let articleIds := dedupFirst (articles.map (fun a => a.flattened.idHash))
  let foundIds := (findIdFieldsForFeed s feedId articleIds).map (fun r => r.fieldHashedValue)
  (articleIds.filter (fun h : String => decide (h ∉ foundIds))).filterMap
    (fun h => articles.reverse.find? (fun a => a.flattened.idHash == h))

/-- `ArticlesService.checkBlockingComparisons` (part_002 lines 878-913). -/
def checkBlockingComparisons (s : StoreState) (feedId : String)
    (blockingComparisons : List String) (newArticles : List Article)
    (currentlyStoredComparisons : List String) : List Article :=
  let currentlyStoredBlockingComparisons :=
    blockingComparisons.filter (fun r => decide (r ∈ currentlyStoredComparisons))
  if newArticles.isEmpty || currentlyStoredBlockingComparisons.isEmpty then newArticles
  else if blockingComparisons.isEmpty then newArticles
  else newArticles.filter (fun article =>
    !(articleFieldsSeenBefore s feedId article currentlyStoredBlockingComparisons))

/-- `ArticlesService.checkPassingComparisons` (part_002 lines 915-965). -/
def checkPassingComparisons (s : StoreState) (feedId : String)
    (passingComparisons : List String) (seenArticles : List Article)
    (currentlyStoredComparisons : List String) : List Article :=
  if seenArticles.isEmpty then seenArticles
  else
    let currentlyStoredPassingComparisons :=
      passingComparisons.filter (fun r => decide (r ∈ currentlyStoredComparisons))
    if passingComparisons.isEmpty || currentlyStoredPassingComparisons.isEmpty then []
    else
      let relevantComparisons :=
        ((areComparisonsStored s feedId passingComparisons).filter (fun r => r.2)).map
          (fun r => r.1)
      if relevantComparisons.isEmpty then []
      else seenArticles.filter (fun article =>
        !(articleFieldsSeenBefore s feedId article relevantComparisons))

/-- `UserFeedDateCheckOptions` (shared type imported at part_002 line 17):
both fields optional on the wire. The threshold is a JavaScript number,
modelled as `Int`; the source guards it with a falsiness test, so the
value 0 behaves like an absent threshold. -/
structure UserFeedDateCheckOptions where
  datePlaceholderReferences : Option (List String) := none
  oldArticleDateDiffMsThreshold : Option Int := none
deriving DecidableEq

/-- Placeholder lookup against `article.raw` (part_002 line 528): the raw
face only carries the `date` and `pubdate` keys; any other placeholder
reads as undefined, hence as an invalid date. -/
def rawLookup (r : RawDates) (key : String) : Option Int :=
  if key = "date" then r.date
  else if key = "pubdate" then r.pubdate
  else none

/-- `ArticlesService.filterArticlesBasedOnDateChecks`
(part_002 lines 506-541), against the wall clock `now`. Passthrough when
`dateChecks` is absent or the threshold is falsy (absent or 0); otherwise
keep an article iff the first placeholder value that parses as a valid
date is within the threshold of `now`, dropping articles without a valid
date. An explicitly provided empty placeholder list is used as-is (the
JavaScript default applies only to a missing list). -/
def filterArticlesBasedOnDateChecks (articles : List Article)
    (dateChecks : Option UserFeedDateCheckOptions) (now : Int) : List Article :=
  match dateChecks with
  | none => articles
  | some dc =>
    match dc.oldArticleDateDiffMsThreshold with
    | none => articles
    | some oldArticleDateDiffMsThreshold =>
      if oldArticleDateDiffMsThreshold = 0 then articles
      else
        articles.filter (fun a =>
          let placeholdersToUse := dc.datePlaceholderReferences.getD ["date", "pubdate"]
          match (placeholdersToUse.filterMap (fun p => rawLookup a.raw p)).head? with
          | none => false
          | some dateValue => decide (now - dateValue ≤ oldArticleDateDiffMsThreshold))

/-- The `seenArticles` computation of `getArticlesToDeliverFromXml`
(part_002 lines 418-423): the parsed articles whose id hash matches no
freshly-determined new article. -/
def seenArticlesOf (s : StoreState) (feedId : String) (articles : List Article) :
    List Article :=
  articles.filter (fun article =>
    !((filterForNewArticles s feedId articles).any
      (fun a => a.flattened.idHash == article.flattened.idHash)))

/-- The `storedComparisons` computation of `getArticlesToDeliverFromXml`
(part_002 lines 426-433): the requested comparison names already present
in the registry. -/
def storedComparisonsOf (s : StoreState) (feedId : String)
    (allComparisons : List String) : List String :=
  ((areComparisonsStored s feedId allComparisons).filter (fun r => r.2)).map (fun r => r.1)

/-- The `unstoredComparisons` computation of `getArticlesToDeliverFromXml`
(part_002 lines 463-465): the requested comparison names missing from the
registry, read from the same pre-store query result. -/
def unstoredComparisonsOf (s : StoreState) (feedId : String)
    (allComparisons : List String) : List String :=
  ((areComparisonsStored s feedId allComparisons).filter (fun r => !r.2)).map (fun r => r.1)

/-- The result of a delivery pass: the store state after the step-8 writes
together with the returned `{allArticles, articlesToDeliver}`. -/
structure DeliverOutput where
  state : StoreState
  allArticles : List Article
  articlesToDeliver : List Article
deriving DecidableEq

/-- `ArticlesService.getArticlesToDeliverFromXml` (part_002 lines 342-504),
with the parser stream replaced by its outcome event and the wall clock
passed explicitly. Steps, in source order: parse (line 364); empty feed
returns nothing (384-389); seed pass stores every id with the
concatenated comparison lists and delivers nothing (391-402); otherwise
split new/seen articles (404-423), read the registry once (425-433), run
the blocking and passing checks against the pre-store state (435-447),
then the three independent `storeArticles` transactions (450-472), and
finally reverse the concatenation and apply the date checks (474-503). -/
def getArticlesToDeliverFromXml (s : StoreState) (feedId : String)
    (ev : FeedparserEvent) (blockingComparisons passingComparisons : List String)
    (dateChecks : Option UserFeedDateCheckOptions) (now : Int) :
    Except FeedError DeliverOutput :=
  match getArticlesFromXml ev with
  | .error e => .error e
  | .ok articles =>
    if articles.isEmpty then
      .ok { state := s, allArticles := articles, articlesToDeliver := [] }
    else if hasPriorArticlesStored s feedId = false then
      .ok { state := (storeArticles s feedId articles
              (blockingComparisons ++ passingComparisons) false).1
            allArticles := articles
            articlesToDeliver := [] }
    else
      let newArticles := filterForNewArticles s feedId articles
      let seenArticles := seenArticlesOf s feedId articles
      let storedComparisons :=
        storedComparisonsOf s feedId (blockingComparisons ++ passingComparisons)
      let articlesPastBlocks :=
        checkBlockingComparisons s feedId blockingComparisons newArticles storedComparisons
      let articlesPassedComparisons :=
        checkPassingComparisons s feedId passingComparisons seenArticles storedComparisons
      let s1 := if newArticles.length > 0 then
          (storeArticles s feedId newArticles storedComparisons false).1
        else s
      let s2 := if articlesPassedComparisons.length > 0 then
          (storeArticles s1 feedId articlesPassedComparisons storedComparisons true).1
        else s1
      let unstoredComparisons :=
        unstoredComparisonsOf s feedId (blockingComparisons ++ passingComparisons)
      let s3 := if unstoredComparisons.length > 0 then
          (storeArticles s2 feedId articles unstoredComparisons true).1
        else s2
      .ok { state := s3
            allArticles := articles
            articlesToDeliver :=
              filterArticlesBasedOnDateChecks
                ((articlesPastBlocks ++ articlesPassedComparisons).reverse) dateChecks now }

/-- Decidable equality for `Except`, used to evaluate the model at the
concrete inputs of the scenarios below. -/
instance {ε α : Type} [DecidableEq ε] [DecidableEq α] : DecidableEq (Except ε α) := fun x y =>
  match x, y with
  | .error a, .error b => decidable_of_iff (a = b) (by simp)
  | .error _, .ok _ => isFalse (by simp)
  | .ok _, .error _ => isFalse (by simp)
  | .ok a, .ok b => decidable_of_iff (a = b) (by simp)

/-- Concrete item: guid `a`, one flattened field `description = "new"`. -/
def artA : RawItem := { guid := some "a", fields := [("description", "new")] }

/-- The article built from `artA` (identity key `guid`). -/
def articleA : Article := buildArticle .guid artA

/-- Concrete item: guid `d`, one flattened field `description = "dnew"`. -/
def artD : RawItem := { guid := some "d", fields := [("description", "dnew")] }

/-- The article built from `artD` (identity key `guid`). -/
def articleD : Article := buildArticle .guid artD

/-- Store state of a feed that has completed its seed pass for article `a`
and has the `description` comparison activated, with an older description
value on record. -/
def s0 : StoreState :=
  { fieldRows :=
      [ { feedId := "feed1", fieldName := "id", fieldHashedValue := sha1hex "a" }
      , { feedId := "feed1", fieldName := "description", fieldHashedValue := sha1hex "old" } ]
    comparisons := [("feed1", "description")] }

/-- Concrete item: guid `x`, title `t1`. -/
def artX1 : RawItem := { guid := some "x", title := some "t1", fields := [("title", "t1")] }

/-- Concrete item sharing the guid of `artX1` but with a different title,
so the two articles get the same id hash. -/
def artX2 : RawItem := { guid := some "x", title := some "t2", fields := [("title", "t2")] }

/-- The article built from `artX1`. -/
def articleX1 : Article := buildArticle .guid artX1

/-- The article built from `artX2`. -/
def articleX2 : Article := buildArticle .guid artX2

/-- Concrete item: guid `e`, title `Hello`. -/
def artE : RawItem := { guid := some "e", title := some "Hello", fields := [("title", "Hello")] }

/-- The article built from `artE`. -/
def articleE : Article := buildArticle .guid artE

/-- Store state of a feed with the `title` blocking comparison activated and
the hash of title `Hello` already persisted, plus a prior id row. -/
def sB : StoreState :=
  { fieldRows :=
      [ { feedId := "feed1", fieldName := "id", fieldHashedValue := sha1hex "z" }
      , { feedId := "feed1", fieldName := "title", fieldHashedValue := sha1hex "Hello" } ]
    comparisons := [("feed1", "title")] }

/-- An article whose raw date is the epoch instant 0. -/
def articleOld : Article :=
  { flattened := { id := "o", idHash := sha1hex "o", fields := [] }
    raw := { date := some 0, pubdate := none } }

/-- An article whose raw date is the instant 500. -/
def articleRecent : Article :=
  { flattened := { id := "r", idHash := sha1hex "r", fields := [] }
    raw := { date := some 500, pubdate := none } }

/-- Semantic reading of `articleFieldsSeenBefore`: some field among the
given keys has a truthy flattened value whose hash is persisted for the
feed. -/
def fieldValueSeen (s : StoreState) (feedId : String) (fieldKeys : List String)
    (a : Article) : Prop :=
  ∃ fld ∈ fieldKeys, ∃ v, getNestedPrimitiveValue a.flattened fld = some v ∧ v ≠ "" ∧
    ({ feedId := feedId, fieldName := fld, fieldHashedValue := sha1hex v } : FieldRow)
      ∈ s.fieldRows

theorem sha1hex_ne_empty (s : String) : sha1hex s ≠ "" := by
  intro h
  have h2 : (sha1hex s).data = ("" : String).data := by rw [h]
  simp [sha1hex] at h2

theorem articleFieldsSeenBefore_iff (s : StoreState) (feedId : String) (a : Article)
    (fieldKeys : List String) :
    articleFieldsSeenBefore s feedId a fieldKeys = true ↔
      fieldValueSeen s feedId fieldKeys a := by
  unfold articleFieldsSeenBefore fieldValueSeen
  set f : String → Option (String × String) := fun key =>
    match getNestedPrimitiveValue a.flattened key with
    | some v => if v = "" then none else some (key, sha1hex v)
    | none => none with hf
  by_cases hq : (fieldKeys.filterMap f).isEmpty
  · rw [if_pos hq]
    rw [List.isEmpty_iff] at hq
    constructor
    · intro h; cases h
    · rintro ⟨fld, hfld, v, hv, hne, hrow⟩
      have : f fld = some (fld, sha1hex v) := by
        rw [hf]; simp only [hv]; rw [if_neg hne]
      have hmem : (fld, sha1hex v) ∈ fieldKeys.filterMap f :=
        List.mem_filterMap.2 ⟨fld, hfld, this⟩
      rw [hq] at hmem
      cases hmem
  · rw [if_neg hq]
    unfold someFieldsExist
    rw [List.any_eq_true]
    constructor
    · rintro ⟨q, hqmem, hrow⟩
      rcases List.mem_filterMap.1 hqmem with ⟨fld, hfld, hfq⟩
      rw [hf] at hfq
      rcases hv : getNestedPrimitiveValue a.flattened fld with _ | v
      · simp only [hv] at hfq
        cases hfq
      · simp only [hv] at hfq
        by_cases hne : v = ""
        · simp only [if_pos hne] at hfq
          cases hfq
        · simp only [if_neg hne] at hfq
          cases hfq
          refine ⟨fld, hfld, v, hv, hne, ?_⟩
          simpa using hrow
    · rintro ⟨fld, hfld, v, hv, hne, hrow⟩
      refine ⟨(fld, sha1hex v), ?_, by simpa using hrow⟩
      refine List.mem_filterMap.2 ⟨fld, hfld, ?_⟩
      rw [hf]; simp only [hv]; rw [if_neg hne]

theorem checkBlockingComparisons_mem_iff (s : StoreState) (feedId : String)
    (blocking newStored : List String) (newArticles : List Article) (a : Article) :
    a ∈ checkBlockingComparisons s feedId blocking newArticles newStored ↔
      (a ∈ newArticles ∧
        ¬ fieldValueSeen s feedId (blocking.filter (fun r => decide (r ∈ newStored))) a) := by
  unfold checkBlockingComparisons
  by_cases hg : (newArticles.isEmpty ||
      (blocking.filter (fun r => decide (r ∈ newStored))).isEmpty) = true
  · rw [if_pos hg]
    rcases Bool.or_eq_true_iff.1 hg with h1 | h2
    · rw [List.isEmpty_iff] at h1
      subst h1
      simp
    · rw [List.isEmpty_iff] at h2
      rw [h2]
      have : ¬ fieldValueSeen s feedId [] a := by
        rintro ⟨fld, hfld, _⟩
        cases hfld
      simp [this]
  · rw [if_neg hg]
    have hbne : ¬ blocking.isEmpty = true := by
      intro hb
      rw [List.isEmpty_iff] at hb
      subst hb
      simp at hg
    rw [if_neg hbne]
    rw [List.mem_filter]
    constructor
    · rintro ⟨hmem, hp⟩
      refine ⟨hmem, ?_⟩
      intro hseen
      rw [← articleFieldsSeenBefore_iff] at hseen
      rw [hseen] at hp
      cases hp
    · rintro ⟨hmem, hns⟩
      refine ⟨hmem, ?_⟩
      rw [← articleFieldsSeenBefore_iff] at hns
      simp [Bool.not_eq_true] at hns ⊢
      exact hns

theorem checkPassingComparisons_subset (s : StoreState) (feedId : String)
    (passing passStored : List String) (seenArticles : List Article) (a : Article)
    (h : a ∈ checkPassingComparisons s feedId passing seenArticles passStored) :
    a ∈ seenArticles := by
  simp only [checkPassingComparisons] at h
  split at h
  · exact h
  · split at h
    · cases h
    · split at h
      · cases h
      · exact (List.mem_filter.1 h).1

theorem checkBlockingComparisons_sublist (s : StoreState) (feedId : String)
    (blocking newStored : List String) (newArticles : List Article) :
    (checkBlockingComparisons s feedId blocking newArticles newStored).Sublist newArticles := by
  simp only [checkBlockingComparisons]
  split
  · exact List.Sublist.refl _
  · split
    · exact List.Sublist.refl _
    · exact List.filter_sublist _

theorem checkPassingComparisons_sublist (s : StoreState) (feedId : String)
    (passing passStored : List String) (seenArticles : List Article) :
    (checkPassingComparisons s feedId passing seenArticles passStored).Sublist seenArticles := by
  simp only [checkPassingComparisons]
  split
  · exact List.Sublist.refl _
  · split
    · exact List.nil_sublist _
    · split
      · exact List.nil_sublist _
      · exact List.filter_sublist _

theorem mem_filterArticlesBasedOnDateChecks (articles : List Article)
    (dateChecks : Option UserFeedDateCheckOptions) (now : Int) (a : Article)
    (h : a ∈ filterArticlesBasedOnDateChecks articles dateChecks now) :
    a ∈ articles := by
  unfold filterArticlesBasedOnDateChecks at h
  split at h
  · exact h
  · split at h
    · exact h
    · split at h
      · exact h
      · exact (List.mem_filter.1 h).1

theorem storedComparisonsOf_eq_filter (s : StoreState) (feedId : String)
    (fields : List String) :
    storedComparisonsOf s feedId fields =
      fields.filter (fun fl => decide ((feedId, fl) ∈ s.comparisons)) := by
  induction fields with
  | nil => rfl
  | cons x t ih =>
    simp only [storedComparisonsOf, areComparisonsStored, List.map_cons,
      List.filter_cons] at ih ⊢
    by_cases hx : (feedId, x) ∈ s.comparisons
    · simp [hx, ih]
    · simp [hx, ih]

theorem filter_mem_storedComparisonsOf (s : StoreState) (feedId : String)
    (blocking passing : List String) :
    blocking.filter
        (fun r => decide (r ∈ storedComparisonsOf s feedId (blocking ++ passing))) =
      blocking.filter (fun fl => decide ((feedId, fl) ∈ s.comparisons)) := by
  apply List.filter_congr
  intro x hx
  rw [storedComparisonsOf_eq_filter]
  by_cases hreg : (feedId, x) ∈ s.comparisons
  · simp [List.mem_filter, List.mem_append, hx, hreg]
  · simp [List.mem_filter, hreg]

theorem storeArticlesInner_ok_fieldRows (s : StoreState) (feedId : String)
    (articles : List Article) (comparisonFields : List String) (s1 : StoreState)
    (h : storeArticlesInner s feedId articles comparisonFields = .ok s1) :
    ∃ extra, s1.fieldRows = (s.fieldRows ++ idRowsFor feedId articles) ++ extra := by
  unfold storeArticlesInner at h
  cases hp : persist s.fieldRows (idRowsFor feedId articles) with
  | error e => rw [hp] at h; cases h
  | ok fieldRows =>
    rw [hp] at h
    have hrows : fieldRows = s.fieldRows ++ idRowsFor feedId articles := by
      unfold persist at hp
      split at hp
      · cases hp
      · cases hp; rfl
    subst hrows
    simp only [storeArticleComparisons] at h
    split at h
    · cases h; exact ⟨[], by simp⟩
    · split at h
      · cases h
      · split at h
        · cases h
        · rename_i fieldRows2 hp2
          cases h
          refine ⟨buildComparisonRows feedId articles comparisonFields, ?_⟩
          unfold persist at hp2
          split at hp2
          · cases hp2
          · cases hp2; rfl

theorem getArticlesToDeliver_seed (s : StoreState) (feedId : String)
    (ev : FeedparserEvent) (b p : List String)
    (dc : Option UserFeedDateCheckOptions) (now : Int) (articles : List Article)
    (hp : getArticlesFromXml ev = .ok articles)
    (hne : articles.isEmpty = false)
    (hprior : hasPriorArticlesStored s feedId = false) :
    getArticlesToDeliverFromXml s feedId ev b p dc now =
      .ok { state := (storeArticles s feedId articles (b ++ p) false).1
            allArticles := articles
            articlesToDeliver := [] } := by
  unfold getArticlesToDeliverFromXml
  rw [hp]
  simp only [hne, hprior, Bool.false_eq_true, if_false, if_true]

theorem getArticlesToDeliver_nonseed (s : StoreState) (feedId : String)
    (ev : FeedparserEvent) (b p : List String)
    (dc : Option UserFeedDateCheckOptions) (now : Int) (articles : List Article)
    (out : DeliverOutput)
    (hp : getArticlesFromXml ev = .ok articles)
    (hne : articles.isEmpty = false)
    (hprior : hasPriorArticlesStored s feedId = true)
    (hrun : getArticlesToDeliverFromXml s feedId ev b p dc now = .ok out) :
    out.allArticles = articles ∧
      out.articlesToDeliver =
        filterArticlesBasedOnDateChecks
          ((checkBlockingComparisons s feedId b (filterForNewArticles s feedId articles)
              (storedComparisonsOf s feedId (b ++ p)) ++
            checkPassingComparisons s feedId p (seenArticlesOf s feedId articles)
              (storedComparisonsOf s feedId (b ++ p))).reverse) dc now := by
  unfold getArticlesToDeliverFromXml at hrun
  rw [hp] at hrun
  simp only [hne, hprior, Bool.false_eq_true, Bool.true_eq_false, if_false, if_true] at hrun
  have h2 := Except.ok.inj hrun
  subst h2
  exact ⟨rfl, rfl⟩

theorem blocked_not_delivered (s : StoreState) (feedId : String)
    (ev : FeedparserEvent) (b p : List String)
    (dc : Option UserFeedDateCheckOptions) (now : Int) (out : DeliverOutput)
    (x : Article)
    (hrun : getArticlesToDeliverFromXml s feedId ev b p dc now = .ok out)
    (hx : x ∈ filterForNewArticles s feedId out.allArticles)
    (hblocked : fieldValueSeen s feedId
      (b.filter (fun fl => decide ((feedId, fl) ∈ s.comparisons))) x) :
    x ∉ out.articlesToDeliver := by
  cases hev : getArticlesFromXml ev with
  | error e =>
    unfold getArticlesToDeliverFromXml at hrun
    rw [hev] at hrun
    cases hrun
  | ok articles =>
    by_cases hne : articles.isEmpty
    · unfold getArticlesToDeliverFromXml at hrun
      rw [hev] at hrun
      simp only [hne, if_true] at hrun
      have h2 := Except.ok.inj hrun
      subst h2
      simp
    · rw [Bool.not_eq_true] at hne
      by_cases hprior : hasPriorArticlesStored s feedId
      · rcases getArticlesToDeliver_nonseed s feedId ev b p dc now articles out
          hev hne hprior hrun with ⟨hall, hdel⟩
        rw [hall] at hx
        rw [hdel]
        intro hmem
        have hmem2 := mem_filterArticlesBasedOnDateChecks _ _ _ _ hmem
        rw [List.mem_reverse] at hmem2
        rcases List.mem_append.1 hmem2 with hpb | hps
        · have hchar := (checkBlockingComparisons_mem_iff s feedId b
            (storedComparisonsOf s feedId (b ++ p))
            (filterForNewArticles s feedId articles) x).1 hpb
          rw [filter_mem_storedComparisonsOf] at hchar
          exact hchar.2 hblocked
        · have hseen := checkPassingComparisons_subset _ _ _ _ _ _ hps
          unfold seenArticlesOf at hseen
          have hany := (List.mem_filter.1 hseen).2
          rw [Bool.not_eq_true'] at hany
          rw [List.any_eq_false] at hany
          exact absurd (by simp) (hany x hx)
      · rw [Bool.not_eq_true] at hprior
        rw [getArticlesToDeliver_seed s feedId ev b p dc now articles hev hne hprior] at hrun
        have h2 := Except.ok.inj hrun
        subst h2
        simp

/-- C1: the claim states that a `storeArticles` call with `skipIdStorage=true`
persists no id rows for the given articles. The code contradicts the claim
and its own doc comment on the option (part_002 lines 552-556, "Set to true
if we only want to store comparison fields"): the id-row loop at lines
560-569 runs unconditionally and `skipIdStorage` is never read. Evaluated
with `skipIdStorage := true` on an empty store, the persisted state contains
the id row of the article. -/
theorem skipIdStorage_is_ignored :
    ({ feedId := "feed1", fieldName := "id", fieldHashedValue := sha1hex "a" } : FieldRow)
      ∈ (storeArticles { fieldRows := [], comparisons := [] } "feed1" [articleA]
          ["description"] true).1.fieldRows := by
  decide

/-- C2: the claim states that rerunning `getArticlesToDeliverFromXml` on
identical XML immediately after a completed non-seed pass delivers nothing.
Counter-evaluation: from state `s0` (seeded id row for article `a`,
activated `description` comparison, older description hash), the pass
delivers `articleA` through the passing comparison, yet returns with the
state unchanged: the `skipIdStorage=true` store call re-prepares the id row
(C1), the insert collides with the stored id row, and the transaction rolls
back, losing the new description row. The second conjunct evaluates the
identical rerun from the returned state `s0` and shows it delivers again. -/
theorem rerun_after_passing_delivery_redelivers :
    (getArticlesToDeliverFromXml s0 "feed1" (.items [artA]) [] ["description"] none 0 =
      .ok { state := s0, allArticles := [articleA], articlesToDeliver := [articleA] }) ∧
    ((getArticlesToDeliverFromXml s0 "feed1" (.items [artA]) [] ["description"] none 0).map
        DeliverOutput.articlesToDeliver ≠ .ok []) := by
  decide

/-- C10: if the field-store persist inside a `storeArticles` call raises a
unique-constraint violation (code 23505), the call returns normally (the
catch at part_002 lines 582-591 swallows the error) and the enclosing
transaction rolls back, so the returned state is exactly the pre-call
state: no id rows, comparison field rows or registry rows of the
invocation are persisted, including the rows that did not themselves
collide. -/
theorem storeArticles_swallows_unique_violation (s : StoreState) (feedId : String)
    (articles : List Article) (comparisonFields : List String) (skip : Bool)
    (e : DbError)
    (h : storeArticlesInner s feedId articles comparisonFields = .error e) :
    storeArticles s feedId articles comparisonFields skip = (s, none) := by
  unfold storeArticles
  rw [h]

/-- Witness for C10 at a concrete input: storing article `a` again for a
feed that already has its id row raises the violation, and the call
returns the untouched state with no error, although the fresh
`description` row of the same invocation did not itself collide. -/
theorem storeArticles_swallows_unique_violation_witness :
    (storeArticlesInner s0 "feed1" [articleA] ["description"] =
      .error .uniqueConstraintViolation) ∧
    storeArticles s0 "feed1" [articleA] ["description"] true = (s0, none) :=
  ⟨by decide,
    storeArticles_swallows_unique_violation s0 "feed1" [articleA] ["description"] true
      .uniqueConstraintViolation (by decide)⟩

/-- C8: the parse-outcome classification of `getArticlesFromXml`
(part_002 lines 742-751, 769-771): a parser error message equal to
"Not a feed" or beginning with "Unexpected end" is rejected as the invalid
feed error; any other parser error propagates verbatim; and valid XML with
zero items resolves to an empty article list without any error (in
particular the no-id-type rejection is not reached). -/
theorem getArticlesFromXml_error_taxonomy :
    (∀ msg : String,
      (msg = "Not a feed" ∨ "Unexpected end".data.isPrefixOf msg.data = true) →
      getArticlesFromXml (.parseError msg) = .error .invalidFeed) ∧
    (∀ msg : String, msg ≠ "Not a feed" →
      "Unexpected end".data.isPrefixOf msg.data = false →
      getArticlesFromXml (.parseError msg) = .error (.parserError msg)) ∧
    getArticlesFromXml (.items []) = .ok [] := by
  refine ⟨?_, ?_, by decide⟩
  · intro msg h
    rcases h with h | h <;>
      simp [getArticlesFromXml, msgIndicatesInvalidFeed, h]
  · intro msg h1 h2
    simp [getArticlesFromXml, msgIndicatesInvalidFeed, h1, h2]

/-- Witness for C8 at concrete messages: "Not a feed" maps to the invalid
feed error and the unrelated message "boom" propagates verbatim. -/
theorem getArticlesFromXml_error_taxonomy_witness :
    getArticlesFromXml (.parseError "Not a feed") = .error .invalidFeed ∧
    getArticlesFromXml (.parseError "boom") = .error (.parserError "boom") :=
  ⟨getArticlesFromXml_error_taxonomy.1 "Not a feed" (Or.inl rfl),
    getArticlesFromXml_error_taxonomy.2.1 "boom" (by decide) (by decide)⟩

/-- C9: counter-evaluation for the claimed date-check semantics. With
`oldArticleDateDiffMsThreshold` present and equal to 0, the claim requires
keeping an article iff `now - date ≤ 0`; `articleOld` has date 0 at
`now = 1000`, so it would have to be dropped. The code instead guards the
threshold with a JavaScript falsiness test (part_002 line 517), so the
value 0 acts as a passthrough and the article is kept. -/
theorem dateChecks_zero_threshold_keeps_old_article :
    filterArticlesBasedOnDateChecks [articleOld]
        (some { datePlaceholderReferences := none,
                oldArticleDateDiffMsThreshold := some 0 }) 1000 = [articleOld] ∧
    ¬ ((1000 : Int) - 0 ≤ 0) := by
  decide

/-- C9 amended: `filterArticlesBasedOnDateChecks` is the identity when
`dateChecks` is absent, when its threshold is absent, and also when the
threshold equals 0 (JavaScript falsiness); for a present non-zero
threshold `t` it keeps an article iff the first placeholder value of
`datePlaceholderReferences` (defaulting to date then pubdate when the list
is not provided) that parses as a valid date is within `t` of `now`,
dropping every article with no valid date; hence no delivered article has
`now - date > t`. -/
theorem filterArticlesBasedOnDateChecks_correct :
    (∀ (articles : List Article) (now : Int),
      filterArticlesBasedOnDateChecks articles none now = articles) ∧
    (∀ (articles : List Article) (dc : UserFeedDateCheckOptions) (now : Int),
      (dc.oldArticleDateDiffMsThreshold = none ∨
        dc.oldArticleDateDiffMsThreshold = some 0) →
      filterArticlesBasedOnDateChecks articles (some dc) now = articles) ∧
    (∀ (articles : List Article) (dc : UserFeedDateCheckOptions) (t now : Int)
        (a : Article),
      dc.oldArticleDateDiffMsThreshold = some t → t ≠ 0 →
      (a ∈ filterArticlesBasedOnDateChecks articles (some dc) now ↔
        (a ∈ articles ∧ ∃ d,
          ((dc.datePlaceholderReferences.getD ["date", "pubdate"]).filterMap
            (fun pl => rawLookup a.raw pl)).head? = some d ∧ now - d ≤ t))) := by
  refine ⟨fun _ _ => rfl, ?_, ?_⟩
  · intro articles dc now h
    rcases h with h | h <;> simp [filterArticlesBasedOnDateChecks, h]
  · intro articles dc t now a ht htne
    simp only [filterArticlesBasedOnDateChecks, ht, if_neg htne]
    rw [List.mem_filter]
    constructor
    · rintro ⟨hmem, hp⟩
      refine ⟨hmem, ?_⟩
      rcases hd : ((dc.datePlaceholderReferences.getD ["date", "pubdate"]).filterMap
          (fun pl => rawLookup a.raw pl)).head? with _ | d
      · simp only [hd] at hp
        cases hp
      · simp only [hd] at hp
        exact ⟨d, rfl, of_decide_eq_true hp⟩
    · rintro ⟨hmem, d, hd, hle⟩
      refine ⟨hmem, ?_⟩
      simp only [hd]
      exact decide_eq_true hle

/-- Witness for the amended C9 at a concrete input: with threshold 5000 at
`now = 1000`, the article dated 500 is kept (its age 500 is within the
threshold). -/
theorem filterArticlesBasedOnDateChecks_correct_witness :
    articleRecent ∈ filterArticlesBasedOnDateChecks [articleRecent]
      (some { datePlaceholderReferences := none,
              oldArticleDateDiffMsThreshold := some 5000 }) 1000 :=
  (filterArticlesBasedOnDateChecks_correct.2.2 [articleRecent]
      { datePlaceholderReferences := none, oldArticleDateDiffMsThreshold := some 5000 }
      5000 1000 articleRecent rfl (by decide)).2
    ⟨by decide, 500, by decide, by decide⟩

/-- C3: counter-evaluation for the claimed single-transaction step 8. From
state `s0`, the pass over emission `[artA, artD]` runs two persistence
sub-steps: the new-article sub-step for `articleD` commits (its id row is
in the final state), while the passed-article sub-step for `articleA`
rolls back (the freshly passed description hash of `"new"` is absent from
the final state) even though `articleA` is delivered. The rows of one
sub-step committed while the rows of another were lost, so step 8 is not a
single transaction. -/
theorem step8_substeps_commit_independently :
    (getArticlesToDeliverFromXml s0 "feed1" (.items [artA, artD]) [] ["description"]
        none 0).map
      (fun o =>
        (decide (({ feedId := "feed1", fieldName := "id", fieldHashedValue := sha1hex "d" } : FieldRow) ∈ o.state.fieldRows),
         decide (({ feedId := "feed1", fieldName := "description", fieldHashedValue := sha1hex "new" } : FieldRow) ∈ o.state.fieldRows),
         decide (articleA ∈ o.articlesToDeliver))) = .ok (true, false, true) := by
  decide

/-- C3 amended: each of the three step-8 persistence sub-steps is its own
`storeArticles` transaction. Within one sub-step all-or-nothing holds: the
call either leaves the store state unchanged (rollback of its id rows,
comparison rows and registry rows together) or commits the whole inner
transaction; but the sub-steps are independent transactions, so one may
commit while another rolls back (see the counter-evaluation). -/
theorem storeArticles_substep_atomic (s : StoreState) (feedId : String)
    (articles : List Article) (comparisonFields : List String) (skip : Bool) :
    (storeArticles s feedId articles comparisonFields skip).1 = s ∨
      storeArticlesInner s feedId articles comparisonFields =
        .ok (storeArticles s feedId articles comparisonFields skip).1 := by
  unfold storeArticles
  cases h : storeArticlesInner s feedId articles comparisonFields with
  | ok s1 => right; rfl
  | error e => left; rfl

/-- C4: counter-evaluation for the claimed first-poll behaviour. Two parsed
articles share the guid `x`, hence the id hash: the seed transaction
prepares two identical id rows, the insert raises the unique violation and
rolls back, and the call still returns no deliveries — so on this
non-empty first poll no id row is persisted for any article, contradicting
the claim that id rows are persisted for every article. -/
theorem seed_pass_duplicate_ids_persist_nothing :
    getArticlesToDeliverFromXml { fieldRows := [], comparisons := [] } "feed1"
        (.items [artX1, artX2]) [] [] none 0 =
      .ok { state := { fieldRows := [], comparisons := [] }
            allArticles := [articleX1, articleX2]
            articlesToDeliver := [] } ∧
    ({ feedId := "feed1", fieldName := "id", fieldHashedValue := sha1hex "x" } : FieldRow)
      ∉ ({ fieldRows := [], comparisons := [] } : StoreState).fieldRows := by
  decide

/-- C4 amended: on a first-ever poll (no rows stored for the feed) with a
non-empty parsed article list, `getArticlesToDeliverFromXml` always
returns no deliveries with `allArticles` equal to the parsed articles, and
runs the seed store with the concatenation of blocking and passing
comparisons: when that transaction commits, an id row is persisted for
every article; when it raises a unique violation (for example duplicate id
hashes in the batch), it rolls back and the state is unchanged, while the
empty delivery is still returned. -/
theorem seed_pass_behaviour (s : StoreState) (feedId : String)
    (ev : FeedparserEvent) (b p : List String)
    (dc : Option UserFeedDateCheckOptions) (now : Int) (articles : List Article)
    (out : DeliverOutput)
    (hp : getArticlesFromXml ev = .ok articles)
    (hne : articles.isEmpty = false)
    (hprior : hasArticlesStoredForFeed s feedId = false)
    (hrun : getArticlesToDeliverFromXml s feedId ev b p dc now = .ok out) :
    out.allArticles = articles ∧ out.articlesToDeliver = [] ∧
    (∀ s1, storeArticlesInner s feedId articles (b ++ p) = .ok s1 →
      out.state = s1 ∧
      ∀ a ∈ articles,
        ({ feedId := feedId, fieldName := "id", fieldHashedValue := a.flattened.idHash } : FieldRow)
          ∈ out.state.fieldRows) ∧
    (∀ e, storeArticlesInner s feedId articles (b ++ p) = .error e → out.state = s) := by
  have hprior2 : hasPriorArticlesStored s feedId = false := hprior
  rw [getArticlesToDeliver_seed s feedId ev b p dc now articles hp hne hprior2] at hrun
  have h2 := Except.ok.inj hrun
  subst h2
  refine ⟨rfl, rfl, ?_, ?_⟩
  · intro s1 hinner
    have hstate : (storeArticles s feedId articles (b ++ p) false).1 = s1 := by
      unfold storeArticles
      rw [hinner]
    refine ⟨hstate, ?_⟩
    intro a ha
    rcases storeArticlesInner_ok_fieldRows s feedId articles (b ++ p) s1 hinner with
      ⟨extra, hshape⟩
    have hidmem : ({ feedId := feedId, fieldName := "id", fieldHashedValue := a.flattened.idHash } : FieldRow)
        ∈ idRowsFor feedId articles :=
      List.mem_map.2 ⟨a, ha, rfl⟩
    show _ ∈ (storeArticles s feedId articles (b ++ p) false).1.fieldRows
    rw [hstate, hshape]
    simp [List.mem_append, hidmem]
  · intro e hinner
    show (storeArticles s feedId articles (b ++ p) false).1 = s
    unfold storeArticles
    rw [hinner]

/-- Witness for the amended C4 at a concrete input: a first poll of a
single article seeds its id row and delivers nothing. -/
theorem seed_pass_behaviour_witness :
    (getArticlesToDeliverFromXml { fieldRows := [], comparisons := [] } "feed1"
        (.items [artA]) [] [] none 0 =
      .ok { state := { fieldRows := [{ feedId := "feed1", fieldName := "id", fieldHashedValue := sha1hex "a" }], comparisons := [] }
            allArticles := [articleA]
            articlesToDeliver := [] }) ∧
    ({ feedId := "feed1", fieldName := "id", fieldHashedValue := sha1hex "a" } : FieldRow)
      ∈ ({ state := { fieldRows := [{ feedId := "feed1", fieldName := "id", fieldHashedValue := sha1hex "a" }], comparisons := [] }
           allArticles := [articleA]
           articlesToDeliver := [] } : DeliverOutput).state.fieldRows :=
  ⟨by decide,
    ((seed_pass_behaviour { fieldRows := [], comparisons := [] } "feed1"
        (.items [artA]) [] [] none 0 [articleA]
        { state := { fieldRows := [{ feedId := "feed1", fieldName := "id", fieldHashedValue := sha1hex "a" }], comparisons := [] }
          allArticles := [articleA]
          articlesToDeliver := [] }
        (by decide) (by decide) (by decide) (by decide)).2.2.1
      { fieldRows := [{ feedId := "feed1", fieldName := "id", fieldHashedValue := sha1hex "a" }], comparisons := [] }
      (by decide)).2 articleA (by decide)⟩

/-- C5: `checkBlockingComparisons` keeps a new article iff no blocking field
of it that is among the activated comparisons has a truthy value whose
hash is persisted for the feed; when `blockingComparisons` is empty, or
its intersection with the activated comparisons is empty, every new
article passes; and in the full delivery pass an article among the new
articles that repeats an activated blocking-field hash is never in
`articlesToDeliver`. -/
theorem checkBlockingComparisons_correct :
    (∀ (s : StoreState) (feedId : String) (blocking newStored : List String)
        (newArticles : List Article) (a : Article),
      a ∈ checkBlockingComparisons s feedId blocking newArticles newStored ↔
        (a ∈ newArticles ∧ ¬ fieldValueSeen s feedId
          (blocking.filter (fun r => decide (r ∈ newStored))) a)) ∧
    (∀ (s : StoreState) (feedId : String) (newStored : List String)
        (newArticles : List Article),
      checkBlockingComparisons s feedId [] newArticles newStored = newArticles) ∧
    (∀ (s : StoreState) (feedId : String) (blocking newStored : List String)
        (newArticles : List Article),
      blocking.filter (fun r => decide (r ∈ newStored)) = [] →
      checkBlockingComparisons s feedId blocking newArticles newStored = newArticles) ∧
    (∀ (s : StoreState) (feedId : String) (ev : FeedparserEvent)
        (b p : List String) (dc : Option UserFeedDateCheckOptions) (now : Int)
        (out : DeliverOutput) (x : Article),
      getArticlesToDeliverFromXml s feedId ev b p dc now = .ok out →
      x ∈ filterForNewArticles s feedId out.allArticles →
      fieldValueSeen s feedId
        (b.filter (fun fl => decide ((feedId, fl) ∈ s.comparisons))) x →
      x ∉ out.articlesToDeliver) := by
  refine ⟨checkBlockingComparisons_mem_iff, ?_, ?_, blocked_not_delivered⟩
  · intro s feedId newStored newArticles
    simp [checkBlockingComparisons]
  · intro s feedId blocking newStored newArticles h
    simp [checkBlockingComparisons, h]

/-- Witness for C5 at a concrete input: from state `sB` (activated `title`
blocking comparison with the hash of "Hello" persisted), the new article
`articleE` carrying title "Hello" is blocked and the pass delivers
nothing. -/
theorem checkBlockingComparisons_correct_witness :
    (getArticlesToDeliverFromXml sB "feed1" (.items [artE]) ["title"] [] none 0 =
      .ok { state := sB, allArticles := [articleE], articlesToDeliver := [] }) ∧
    articleE ∉
      ({ state := sB, allArticles := [articleE], articlesToDeliver := [] } : DeliverOutput).articlesToDeliver :=
  ⟨by decide,
    checkBlockingComparisons_correct.2.2.2 sB "feed1" (.items [artE]) ["title"] []
      none 0
      { state := sB, allArticles := [articleE], articlesToDeliver := [] }
      articleE (by decide) (by decide)
      ⟨"title", by decide, "Hello", by decide, by decide, by decide⟩⟩

/-- C6: counter-evaluation for the claimed delivery order. The parser emits
`articleA` (a previously seen article, delivered through the passing
comparison) before `articleD` (a new article); both are delivered and both
groups are non-empty. The reverse of the emission order restricted to the
delivered articles is `[articleD, articleA]`, but the code concatenates
the new-article group before the passed-article group and reverses that,
returning `[articleA, articleD]`. -/
theorem delivery_order_not_reverse_of_emission :
    (getArticlesToDeliverFromXml s0 "feed1" (.items [artA, artD]) [] ["description"]
        none 0).map DeliverOutput.articlesToDeliver = .ok [articleA, articleD] ∧
    [articleA, articleD].reverse.filter
      (fun a => decide (a ∈ [articleA, articleD])) = [articleD, articleA] ∧
    [articleA, articleD] ≠ [articleD, articleA] := by
  decide

/-- C6 amended: on a non-seed pass, `articlesToDeliver` is the date-check
filtering of the reverse of `articlesPastBlocks ++ articlesPassedComparisons`,
where the blocked-check output is a sublist (emission-ordered subsequence)
of the new articles and the passing-check output a sublist of the seen
articles, themselves an emission-ordered sublist of the parsed articles.
The result equals the reverse of the emission order restricted to the
delivered articles only when the delivered new and seen articles do not
interleave (for example when either group is empty). -/
theorem delivery_order_composition (s : StoreState) (feedId : String)
    (ev : FeedparserEvent) (b p : List String)
    (dc : Option UserFeedDateCheckOptions) (now : Int) (articles : List Article)
    (out : DeliverOutput)
    (hp : getArticlesFromXml ev = .ok articles)
    (hne : articles.isEmpty = false)
    (hprior : hasArticlesStoredForFeed s feedId = true)
    (hrun : getArticlesToDeliverFromXml s feedId ev b p dc now = .ok out) :
    out.articlesToDeliver =
      filterArticlesBasedOnDateChecks
        ((checkBlockingComparisons s feedId b (filterForNewArticles s feedId articles)
            (storedComparisonsOf s feedId (b ++ p)) ++
          checkPassingComparisons s feedId p (seenArticlesOf s feedId articles)
            (storedComparisonsOf s feedId (b ++ p))).reverse) dc now ∧
    (checkBlockingComparisons s feedId b (filterForNewArticles s feedId articles)
        (storedComparisonsOf s feedId (b ++ p))).Sublist
      (filterForNewArticles s feedId articles) ∧
    (checkPassingComparisons s feedId p (seenArticlesOf s feedId articles)
        (storedComparisonsOf s feedId (b ++ p))).Sublist
      (seenArticlesOf s feedId articles) ∧
    (seenArticlesOf s feedId articles).Sublist articles := by
  have hprior2 : hasPriorArticlesStored s feedId = true := hprior
  rcases getArticlesToDeliver_nonseed s feedId ev b p dc now articles out
    hp hne hprior2 hrun with ⟨_, hdel⟩
  exact ⟨hdel, checkBlockingComparisons_sublist _ _ _ _ _,
    checkPassingComparisons_sublist _ _ _ _ _, List.filter_sublist _⟩

/-- Witness for the amended C6 at a concrete input: the delivered sequence
of the two-article scenario equals the date-check filtering of the
reversed concatenation of the two check outputs. -/
theorem delivery_order_composition_witness :
    ({ state :=
         { fieldRows := s0.fieldRows ++
             [ { feedId := "feed1", fieldName := "id", fieldHashedValue := sha1hex "d" }
             , { feedId := "feed1", fieldName := "description", fieldHashedValue := sha1hex "dnew" } ]
           comparisons := s0.comparisons }
       allArticles := [articleA, articleD]
       articlesToDeliver := [articleA, articleD] } : DeliverOutput).articlesToDeliver =
      filterArticlesBasedOnDateChecks
        ((checkBlockingComparisons s0 "feed1" []
            (filterForNewArticles s0 "feed1" [articleA, articleD])
            (storedComparisonsOf s0 "feed1" ([] ++ ["description"])) ++
          checkPassingComparisons s0 "feed1" ["description"]
            (seenArticlesOf s0 "feed1" [articleA, articleD])
            (storedComparisonsOf s0 "feed1" ([] ++ ["description"]))).reverse) none 0 :=
  (delivery_order_composition s0 "feed1" (.items [artA, artD]) [] ["description"]
    none 0 [articleA, articleD]
    { state :=
        { fieldRows := s0.fieldRows ++
            [ { feedId := "feed1", fieldName := "id", fieldHashedValue := sha1hex "d" }
            , { feedId := "feed1", fieldName := "description", fieldHashedValue := sha1hex "dnew" } ]
          comparisons := s0.comparisons }
      allArticles := [articleA, articleD]
      articlesToDeliver := [articleA, articleD] }
    (by decide) (by decide) (by decide) (by decide)).1

/-- C7: every article emitted by a successful `getArticlesFromXml` pass
satisfies `idHash = sha1hex id` with a non-empty id and a non-empty
idHash (the pass rejects any article lacking an id hash, part_002 lines
825-830); and duplicate id hashes within one pass are permitted — the
parse of two items sharing the guid `x` succeeds and emits both articles
with equal id hashes (only a warning is logged). -/
theorem getArticlesFromXml_invariants :
    (∀ (ev : FeedparserEvent) (articles : List Article),
      getArticlesFromXml ev = .ok articles →
      ∀ a ∈ articles,
        a.flattened.idHash = sha1hex a.flattened.id ∧
        a.flattened.id ≠ "" ∧ a.flattened.idHash ≠ "") ∧
    getArticlesFromXml (.items [artX1, artX2]) = .ok [articleX1, articleX2] ∧
    articleX1.flattened.idHash = articleX2.flattened.idHash ∧
    articleX1 ≠ articleX2 := by
  refine ⟨?_, by decide, by decide, by decide⟩
  intro ev articles h a ha
  cases ev with
  | parseError msg =>
    simp only [getArticlesFromXml] at h
    split at h <;> cases h
  | items rawArticles =>
    simp only [getArticlesFromXml] at h
    split at h
    · have h2 := Except.ok.inj h
      subst h2
      cases ha
    · split at h
      · cases h
      · rename_i idType hty
        split at h
        · cases h
        · have h2 := Except.ok.inj h
          subst h2
          rcases List.mem_map.1 ha with ⟨item, hitem, rfl⟩
          have hsurv : survives rawArticles idType = true := List.find?_some hty
          rw [survives, List.all_eq_true] at hsurv
          have hit := hsurv item hitem
          refine ⟨rfl, ?_, ?_⟩
          · rcases hcv : candVal item idType with _ | v
            · rw [hcv] at hit
              cases hit
            · rw [hcv] at hit
              have hvne : v ≠ "" := of_decide_eq_true hit
              show getIDTypeValue item idType ≠ ""
              unfold getIDTypeValue
              rw [hcv]
              exact hvne
          · exact sha1hex_ne_empty _

/-- Witness for C7 at a concrete input: the single-item parse emits
`articleA`, whose id hash is the digest of its non-empty id. -/
theorem getArticlesFromXml_invariants_witness :
    articleA.flattened.idHash = sha1hex articleA.flattened.id ∧
    articleA.flattened.id ≠ "" ∧ articleA.flattened.idHash ≠ "" :=
  getArticlesFromXml_invariants.1 (.items [artA]) [articleA] (by decide)
    articleA (by decide)
